import Mathlib

/-!
Shallow embedding of the DSL core of the SpotAPI repository
(src/clautify/dsl/cache.py and src/clautify/dsl/executor.py), together with
theorems settling the specification claims about it.

Python dicts are modelled as association lists in insertion order (an
OrderedDict is exactly that; `move_to_end` moves a binding to the end,
`popitem(last=False)` pops the front).  Python floats are modelled as
rationals.  `str.lower()`/`str.strip()` are modelled at the character-list
level (ASCII case mapping and ASCII whitespace, which covers everything the
claims quantify over).
-/

deriving instance DecidableEq for Except

namespace SpotDSL

/-! ## Dict / ordered-dict helpers -/

/-- Python `d[k]` lookup on an association list (first binding wins; every
operation below keeps keys unique, as a dict does). -/
def odLookup {K V : Type} [DecidableEq K] (l : List (K × V)) (k : K) : Option V :=
  (l.find? (fun e => decide (e.1 = k))).map (·.2)

/-- Python `d[k] = v`: update in place if the key is present, else append. -/
def dictSet {K V : Type} [DecidableEq K] (l : List (K × V)) (k : K) (v : V) : List (K × V) :=
  if l.any (fun e => decide (e.1 = k)) then
    l.map (fun e => if e.1 = k then (k, v) else e)
  else l ++ [(k, v)]

/-- Python `d.pop(k, None)`: drop the binding for `k` if present. -/
def dictRemove {K V : Type} [DecidableEq K] (l : List (K × V)) (k : K) : List (K × V) :=
  l.filter (fun e => decide (e.1 ≠ k))

/-- Python `k in d`. -/
def dictContains {K V : Type} [DecidableEq K] (l : List (K × V)) (k : K) : Bool :=
  l.any (fun e => decide (e.1 = k))

/-- OrderedDict `d[k] = v` followed by `d.move_to_end(k)`: the binding for `k`
ends up at the end (most-recent position) with value `v`. -/
def odSetMoveEnd {K V : Type} [DecidableEq K] (l : List (K × V)) (k : K) (v : V) :
    List (K × V) :=
  l.filter (fun e => decide (e.1 ≠ k)) ++ [(k, v)]

/-! ## Python string primitives (character-list level) -/

/-- ASCII whitespace recognised by `str.strip()`. -/
def isSpaceChar (c : Char) : Bool :=
  c = ' ' || c = '\t' || c = '\n' || c = '\r' || c = '\x0b' || c = '\x0c'

/-- `str.strip()`: drop leading and trailing whitespace. -/
def trimChars (l : List Char) : List Char :=
  ((l.dropWhile isSpaceChar).reverse.dropWhile isSpaceChar).reverse

/-- `s.lower()` (ASCII case mapping). -/
def pyLower (s : String) : String := ⟨s.data.map Char.toLower⟩

/-- `name.lower().strip()` — the cache key normalisation of cache.py. -/
def pyNorm (s : String) : String := ⟨trimChars ((s.data.map Char.toLower))⟩

/-- Does `pat` lead the list `l`?  (Models Python `str.startswith` at a given
position; used to locate separator occurrences.) -/
def leadsWith : List Char → List Char → Bool
  | [], _ => true
  | _ :: _, [] => false
  | a :: as, b :: bs => a == b && leadsWith as bs

/-- Python `s.split(sep, 1)` at the character level: split at the first
occurrence of `sep`, returning `none` when `sep` does not occur (which also
models the `sep in s` membership test). -/
def splitOnceChars (sep : List Char) : List Char → Option (List Char × List Char)
  | [] => none
  | c :: rest =>
    if leadsWith sep (c :: rest) then some ([], (c :: rest).drop sep.length)
    else
      match splitOnceChars sep rest with
      | some (a, b) => some (c :: a, b)
      | none => none

/-- Python `s.split(sep, 1)` on strings. -/
def splitOnce (s sep : String) : Option (String × String) :=
  (splitOnceChars sep.data s.data).map (fun p => (⟨p.1⟩, ⟨p.2⟩))

/-- Python `s.split(c)` (split on every occurrence of a single character). -/
def splitChar (c : Char) : List Char → List (List Char)
  | [] => [[]]
  | a :: rest =>
    let r := splitChar c rest
    if a == c then [] :: r
    else
      match r with
      | h :: t => (a :: h) :: t
      | [] => [[a]]

/-! ## NameCache (src/clautify/dsl/cache.py) -/

/-- Forward-map key: `(kind, normalized_name)`. -/
abbrev CKey := String × String

/-- State of a `NameCache`: the forward OrderedDict `(kind, name) -> uri` in
recency order (most-recent last), the reverse dict `uri -> name`, the
configured ceiling `_MAX_SIZE` and the dirty flag. -/
structure NameCache where
  cache : List (CKey × String)
  reverse : List (String × String)
  maxSize : Nat
  dirty : Bool
  deriving Repr, DecidableEq

/-- `NameCache._evict`: pop the oldest (front) entry and drop its uri from the
reverse index, until the forward map is within the ceiling. -/
def evictFrom (max : Nat) :
    List (CKey × String) → List (String × String) →
      List (CKey × String) × List (String × String)
  | [], r => ([], r)
  | e :: rest, r =>
    if (e :: rest).length ≤ max then (e :: rest, r)
    else evictFrom max rest (dictRemove r e.2)

/-- `NameCache.add(kind, name, uri)`. -/
def NameCache.add (c : NameCache) (kind name uri : String) : NameCache :=
  if name ≠ "" ∧ uri ≠ "" then
    let key : CKey := (kind, pyNorm name)
    let cache1 := odSetMoveEnd c.cache key uri
    let rev1 := dictSet c.reverse uri name
    let p := evictFrom c.maxSize cache1 rev1
    { cache := p.1, reverse := p.2, maxSize := c.maxSize, dirty := true }
  else c

/-- `NameCache.name_for_uri(uri)`. -/
def NameCache.name_for_uri (c : NameCache) (uri : String) : Option String :=
  odLookup c.reverse uri

/-- `NameCache.resolve(kind, name)`.  `fuzzy` stands for the standard-library
function `difflib.get_close_matches(word, candidates, n=1, cutoff=0.85)`
(an external dependency); it returns a member of `candidates` or nothing, so
the `none` fallback in the matched branch is unreachable for the real matcher.
Returns the resolved uri together with the updated cache (recency refresh). -/
def NameCache.resolve (fuzzy : String → List String → Option String)
    (c : NameCache) (kind name : String) : Option String × NameCache :=
  let key : CKey := (kind, pyNorm name)
  match odLookup c.cache key with
  | some uri =>
    (some uri, { c with cache := odSetMoveEnd c.cache key uri })
  | none =>
    let candidates := (c.cache.filter (fun e => decide (e.1.1 = kind))).map (·.1.2)
    if candidates.isEmpty then (none, c)
    else
      match fuzzy (pyNorm name) candidates with
      | some m =>
        let mkey : CKey := (kind, m)
        match odLookup c.cache mkey with
        | some uri => (some uri, { c with cache := odSetMoveEnd c.cache mkey uri })
        | none => (none, c)
      | none => (none, c)

/-! ### Persistence (save / _load) -/

/-- The current key separator `_SEP = "||"`. -/
def sepStr : String := "||"

/-- The legacy single-byte separator (NUL). -/
def legacySepStr : String := "\x00"

/-- The durable record written by `save`: the forward map with joined keys and
the reverse map, as they appear in the JSON file. -/
structure CacheRecord where
  fwd : List (String × String)
  rev : List (String × String)
  deriving Repr, DecidableEq

/-- The joined forward key written by `save`. -/
def joinKey (k : CKey) : String := k.1 ++ sepStr ++ k.2

/-- The record `save` serialises: the dict comprehension over the forward map
(later duplicates of a joined key overwrite earlier ones, as in a dict). -/
def recordOf (c : NameCache) : CacheRecord :=
  { fwd := c.cache.foldl (fun acc e => dictSet acc (joinKey e.1) e.2) []
    rev := c.reverse }

/-- `NameCache.save()`: writes the record only when dirty (the claim's
"after save writes the record" case); otherwise nothing is written. -/
def NameCache.saveRecord (c : NameCache) : Option CacheRecord :=
  if c.dirty then some (recordOf c) else none

/-- One iteration of the load loop of `_load`: try the current separator
first, then the legacy separator, else skip the entry. -/
def loadStep (acc : List (CKey × String)) (e : String × String) :
    List (CKey × String) :=
  match splitOnce e.1 sepStr with
  | some p => dictSet acc (p.1, p.2) e.2
  | none =>
    match splitOnce e.1 legacySepStr with
    | some p => dictSet acc (p.1, p.2) e.2
    | none => acc

/-- `NameCache._load` from an already-parsed record (the string-map layer of
the JSON file), as run by the constructor: rebuild the forward map, install
the reverse map, then evict down to `maxSize`. -/
def loadRecord (r : CacheRecord) (maxSize : Nat) : NameCache :=
  let cache0 := r.fwd.foldl loadStep []
  let p := evictFrom maxSize cache0 r.rev
  { cache := p.1, reverse := p.2, maxSize := maxSize, dirty := false }

/-! ### JSON layer of `_load` (for the corruption-tolerance claim)

`_load` parses the file with `json.loads` and then navigates the parsed
value.  `PyVal` models an arbitrary parsed JSON value; `loadParsed` models
the body of `_load` including its `except (json.JSONDecodeError, ValueError,
KeyError)` handler: a parse failure (`none`) is caught and leaves the cache
empty, while an `AttributeError` raised by calling `.get`/`.items()` on a
non-dict value is NOT in the handled tuple and escapes the constructor. -/

inductive PyVal where
  | null
  | boolV (b : Bool)
  | intV (n : Int)
  | strV (s : String)
  | arr (l : List PyVal)
  | obj (l : List (String × PyVal))

/-- Uncaught exception classes that can escape `NameCache._load`. -/
inductive PyErr where
  | attributeError
  | typeError
  deriving Repr, DecidableEq

/-- One iteration of the `_load` loop at the JSON level (values are stored
as-is, whatever their JSON type). -/
def loadStepJ (acc : List (CKey × PyVal)) (e : String × PyVal) :
    List (CKey × PyVal) :=
  match splitOnce e.1 sepStr with
  | some p => dictSet acc (p.1, p.2) e.2
  | none =>
    match splitOnce e.1 legacySepStr with
    | some p => dictSet acc (p.1, p.2) e.2
    | none => acc

/-- The `_evict` call made at the end of `_load`, over the raw JSON value that
was assigned to `self._reverse`.  `reverse.pop(evicted_uri, None)` fails with
a `TypeError` when the assigned reverse value is not a dict, or when the
evicted forward value is an unhashable JSON composite. -/
def evictJ (max : Nat) :
    List (CKey × PyVal) → PyVal → Except PyErr (List (CKey × PyVal) × PyVal)
  | [], r => .ok ([], r)
  | e :: rest, r =>
    if (e :: rest).length ≤ max then .ok (e :: rest, r)
    else
      match r with
      | .obj rl =>
        match e.2 with
        | .strV u => evictJ max rest (.obj (dictRemove rl u))
        | .arr _ => .error .typeError
        | .obj _ => .error .typeError
        | _ => evictJ max rest (.obj rl)
      | _ => .error .typeError

/-- `NameCache._load`, from the result of `json.loads` (`none` = parse error),
as executed by the constructor with the default ceiling 5000.  Returns the
final forward map and reverse value, or the exception that escapes. -/
def loadParsed (parsed : Option PyVal) :
    Except PyErr (List (CKey × PyVal) × PyVal) :=
  match parsed with
  | none => .ok ([], .obj [])
  | some raw =>
    match raw with
    | .obj kvs =>
      match (odLookup kvs "cache").getD (.obj []) with
      | .obj items =>
        let fwd := items.foldl loadStepJ []
        let rev := (odLookup kvs "reverse").getD (.obj [])
        evictJ 5000 fwd rev
      | _ => .error .attributeError
    | _ => .error .attributeError

/-- The identifier kinds of the data model (spec §3): both an identifier's
type and a cache namespace. -/
def validKinds : List String := ["track", "artist", "album", "playlist"]

/-- A record whose forward keys are joined with the legacy single-byte
separator (accepted on read only). -/
def legacyRecordOf (c : NameCache) : CacheRecord :=
  { fwd := c.cache.foldl
      (fun acc e => dictSet acc (e.1.1 ++ legacySepStr ++ e.1.2) e.2) []
    rev := c.reverse }

/-! ## Executor (src/clautify/dsl/executor.py) -/

/-- Errors raised as `DSLError` by the dispatch layer, identified by the
code path that raises them (the source distinguishes them by message). -/
inductive DslErr where
  | volumeRange (v : Int)
  | noActiveDevice
  | deviceNotFound (name : String) (available : List String)
  | notFound (name : String)
  | contextRequiresUri
  | unknownAction (a : String)
  | missingField (k : String)
  deriving Repr, DecidableEq

/-- A collaborator call issued by the executor, in issue order.
`cacheResolve` records a successful name resolution against the cache. -/
inductive PCall where
  | songCall (method : String) (id : String)
  | artistCall (method : String) (id : String)
  | playlistCall (method : String) (playlistId : String)
  | songPlaylistCall (method : String) (playlistId : String) (trackId : String)
  | createPlaylist (name : String)
  | pause
  | resume
  | setVolume (fraction : ℚ)
  | setShuffle (b : Bool)
  | repeatTrack (b : Bool)
  | transferPlayer (fromId toId : String)
  | addToQueue (uri : String)
  | skipNext
  | skipPrev
  | playContext (uri : String)
  | playTrack (uri context : String)
  | seekTo (ms : Int)
  | cacheResolve (kind name : String)
  deriving Repr, DecidableEq

/-- A value stored in a result dict. -/
inductive RVal where
  | str (s : String)
  | rat (q : ℚ)
  | int (n : Int)
  | tracksData (n : Nat)
  deriving Repr, DecidableEq

/-- A result dict (`{"status": "ok", ...}`), in insertion order. -/
abbrev Result := List (String × RVal)

/-- A parsed command dict.  A field is `none` when the key is absent. -/
structure Cmd where
  action : String
  target : Option String := none
  context : Option String := none
  kind : Option String := none
  n : Option Int := none
  positionMs : Option Int := none
  track : Option String := none
  playlist : Option String := none
  name : Option String := none
  volume : Option Int := none
  volumeRel : Option Int := none
  mode : Option String := none
  device : Option String := none
  deriving Repr, DecidableEq

/-- An entry of the player's device directory. -/
structure Device where
  name : String
  deviceId : String
  volume : Int
  deriving Repr, DecidableEq

/-- Collaborator state visible to the executor (spec §6: collaborators are
external interfaces; their readable state and returned values are inputs
here, and each call they receive is recorded in the trace). -/
structure Env where
  devices : List (String × Device)
  activeId : String
  deviceId : String
  maxVolume : ℚ
  createdPlaylistId : String
  fuzzy : String → List String → Option String

/-- `_extract_id(uri_or_name, kind)`: strip a `spotify:{kind}:` prefix when
present, else return the input unchanged. -/
def extract_id (uriOrName : String) (kind : String) : String :=
  let pre := "spotify:" ++ kind ++ ":"
  if leadsWith pre.data uriOrName.data then
    ⟨uriOrName.data.drop pre.data.length⟩
  else uriOrName

/-- `_is_uri(target)`. -/
def is_uri (target : String) : Bool :=
  leadsWith "spotify:".data target.data

/-- `_uri_kind(uri)`: second colon-delimited part, defaulting to "track"
when there are fewer than three parts. -/
def uri_kind (uri : String) : String :=
  match splitChar ':' uri.data with
  | _ :: p1 :: _ :: _ => ⟨p1⟩
  | _ => "track"

/-- Python truthiness of an optional string (`None` and `""` are falsy). -/
def truthyStr (s : Option String) : Bool :=
  match s with
  | some s => s ≠ ""
  | none => false

/-- `_SIMPLE_TARGET_ACTIONS`: action -> (service, method, uri kind). -/
def simple_target_actions : List (String × String × String × String) :=
  [("like", "song", "like_song", "track"),
   ("unlike", "song", "unlike_song", "track"),
   ("follow", "artist", "follow", "artist"),
   ("unfollow", "artist", "unfollow", "artist")]

/-- `_PLAYLIST_ACTIONS`: action -> playlist method. -/
def playlist_actions : List (String × String) :=
  [("save", "add_to_library"),
   ("unsave", "remove_from_library"),
   ("playlist_delete", "delete_playlist")]

/-- `_resolve_device_id(name)`: case-insensitive exact device-name match,
else a DSLError listing the available names. -/
def resolve_device_id (env : Env) (name : String) : Except DslErr String :=
  match env.devices.find? (fun d => decide (pyLower d.2.name = pyLower name)) with
  | some d => .ok d.2.deviceId
  | none => .error (.deviceNotFound name (env.devices.map (fun d => d.2.name)))

/-- The `volume` branch of `_apply_state_modifiers`. -/
def modVolume (env : Env) (cmd : Cmd) : List PCall × Option DslErr :=
  match cmd.volume with
  | none => ([], none)
  | some vol =>
    if 0 ≤ vol ∧ vol ≤ 100 then
      ([.setVolume (min ((vol : ℚ) / 100) env.maxVolume)], none)
    else ([], some (.volumeRange vol))

/-- The `volume_rel` branch of `_apply_state_modifiers`. -/
def modVolumeRel (env : Env) (cmd : Cmd) : List PCall × Option DslErr :=
  match cmd.volumeRel with
  | none => ([], none)
  | some delta =>
    match odLookup env.devices env.activeId with
    | none => ([], some .noActiveDevice)
    | some dev =>
      let current : ℚ := (dev.volume : ℚ) / 65535
      let newVol := max 0 (min env.maxVolume (current + (delta : ℚ) / 100))
      ([.setVolume newVol], none)

/-- The `mode` branch of `_apply_state_modifiers` (never fails). -/
def modMode (cmd : Cmd) : List PCall × Option DslErr :=
  match cmd.mode with
  | none => ([], none)
  | some m =>
    ([.setShuffle (decide (m = "shuffle")), .repeatTrack (decide (m = "repeat"))],
     none)

/-- The `device` branch of `_apply_state_modifiers`. -/
def modDevice (env : Env) (cmd : Cmd) : List PCall × Option DslErr :=
  match cmd.device with
  | none => ([], none)
  | some dname =>
    match resolve_device_id env dname with
    | .ok did => ([.transferPlayer env.deviceId did], none)
    | .error e => ([], some e)

/-- `_apply_state_modifiers(cmd)`: volume, volume_rel, mode, device, in this
order, stopping at the first failure.  Returns the calls issued before the
failure (they are not undone) and the failure, if any. -/
def apply_state_modifiers (env : Env) (cmd : Cmd) : List PCall × Option DslErr :=
  let p1 := modVolume env cmd
  match p1.2 with
  | some e => (p1.1, some e)
  | none =>
    let p2 := modVolumeRel env cmd
    match p2.2 with
    | some e => (p1.1 ++ p2.1, some e)
    | none =>
      let p3 := modMode cmd
      match p3.2 with
      | some e => (p1.1 ++ p2.1 ++ p3.1, some e)
      | none =>
        let p4 := modDevice env cmd
        match p4.2 with
        | some e => (p1.1 ++ p2.1 ++ p3.1 ++ p4.1, some e)
        | none => (p1.1 ++ p2.1 ++ p3.1 ++ p4.1, none)

/-- `_action_play(cmd)`.  Returns the outcome, the calls issued, and the
updated cache. -/
def action_play (env : Env) (c : NameCache) (cmd : Cmd) :
    Except DslErr Result × List PCall × NameCache :=
  match cmd.target with
  | none => (.error (.missingField "target"), [], c)
  | some target =>
    let kind0 := cmd.kind.getD "track"
    if is_uri target then
      playBranches c cmd target target (uri_kind target) []
    else
      match NameCache.resolve env.fuzzy c kind0 target with
      | (some uri, c') =>
        playBranches c' cmd target uri kind0 [.cacheResolve kind0 target]
      | (none, _) => (.error (.notFound target), [], c)
where
  /-- The branch selection of `_action_play` after the target is resolved. -/
  playBranches (c : NameCache) (cmd : Cmd)
      (target uri kind : String) (t0 : List PCall) :
      Except DslErr Result × List PCall × NameCache :=
    if kind = "album" ∨ kind = "playlist" then
      (.ok (playResult target uri kind none), t0 ++ [.playContext uri], c)
    else if truthyStr cmd.context then
      match cmd.context with
      | some ctx =>
        if is_uri ctx then
          (.ok (playResult target uri kind (some ctx)), t0 ++ [.playTrack uri ctx], c)
        else (.error .contextRequiresUri, t0, c)
      | none => (.error .contextRequiresUri, t0, c)
    else
      (.ok (playResult target uri kind none), t0 ++ [.addToQueue uri, .skipNext], c)
  /-- The result dict built by `_action_play`, with `resolved_uri` added
  exactly when the resolved uri differs from the literal target. -/
  playResult (target uri kind : String) (ctx : Option String) : Result :=
    let base : Result :=
      [("status", .str "ok"), ("action", .str "play"),
       ("kind", .str kind), ("target", .str target)]
    let base := match ctx with
      | some ctx => base ++ [("context", .str ctx)]
      | none => base
    if uri ≠ target then dictSet base "resolved_uri" (.str uri) else base

/-- `_action_skip(cmd)`. -/
def action_skip (c : NameCache) (cmd : Cmd) :
    Except DslErr Result × List PCall × NameCache :=
  let n := cmd.n.getD 1
  let fn := if 0 ≤ n then PCall.skipNext else PCall.skipPrev
  (.ok [("status", .str "ok"), ("action", .str "skip"), ("n", .int n)],
   List.replicate n.natAbs fn, c)

/-- `_action_seek(cmd)`. -/
def action_seek (c : NameCache) (cmd : Cmd) :
    Except DslErr Result × List PCall × NameCache :=
  match cmd.positionMs with
  | none => (.error (.missingField "position_ms"), [], c)
  | some ms =>
    (.ok [("status", .str "ok"), ("action", .str "seek"), ("position_ms", .int ms)],
     [.seekTo ms], c)

/-- `_action_queue(cmd)`. -/
def action_queue (env : Env) (c : NameCache) (cmd : Cmd) :
    Except DslErr Result × List PCall × NameCache :=
  match cmd.target with
  | none => (.error (.missingField "target"), [], c)
  | some target =>
    if is_uri target then
      (.ok [("status", .str "ok"), ("action", .str "queue"), ("target", .str target)],
       [.addToQueue target], c)
    else
      match NameCache.resolve env.fuzzy c "track" target with
      | (some uri, c') =>
        (.ok [("status", .str "ok"), ("action", .str "queue"), ("target", .str target)],
         [.cacheResolve "track" target, .addToQueue uri], c')
      | (none, _) => (.error (.notFound target), [], c)

/-- `_action_playlist_add(cmd)`. -/
def action_playlist_add (c : NameCache) (cmd : Cmd) :
    Except DslErr Result × List PCall × NameCache :=
  match cmd.track, cmd.playlist with
  | some track, some playlist =>
    (.ok [("status", .str "ok"), ("action", .str "playlist_add"),
          ("track", .str track), ("playlist", .str playlist)],
     [.songPlaylistCall "add_song_to_playlist" (extract_id playlist "playlist")
        (extract_id track "track")], c)
  | none, _ => (.error (.missingField "track"), [], c)
  | _, none => (.error (.missingField "playlist"), [], c)

/-- `_action_playlist_remove(cmd)`. -/
def action_playlist_remove (c : NameCache) (cmd : Cmd) :
    Except DslErr Result × List PCall × NameCache :=
  match cmd.track, cmd.playlist with
  | some track, some playlist =>
    (.ok [("status", .str "ok"), ("action", .str "playlist_remove"),
          ("track", .str track), ("playlist", .str playlist)],
     [.songPlaylistCall "remove_song_from_playlist" (extract_id playlist "playlist")
        (extract_id track "track")], c)
  | none, _ => (.error (.missingField "track"), [], c)
  | _, none => (.error (.missingField "playlist"), [], c)

/-- `_action_playlist_create(cmd)`. -/
def action_playlist_create (env : Env) (c : NameCache) (cmd : Cmd) :
    Except DslErr Result × List PCall × NameCache :=
  match cmd.name with
  | none => (.error (.missingField "name"), [], c)
  | some nm =>
    (.ok [("status", .str "ok"), ("action", .str "playlist_create"),
          ("name", .str nm), ("playlist_id", .str env.createdPlaylistId)],
     [.createPlaylist nm], c)

/-- The result dict of the `set` action: status/action plus a copy of every
present modifier field. -/
def setResult (cmd : Cmd) : Result :=
  let r : Result := [("status", .str "ok"), ("action", .str "set")]
  let r := match cmd.volume with
    | some v => r ++ [("volume", .int v)]
    | none => r
  let r := match cmd.volumeRel with
    | some d => r ++ [("volume_rel", .int d)]
    | none => r
  let r := match cmd.mode with
    | some m => r ++ [("mode", .str m)]
    | none => r
  match cmd.device with
  | some d => r ++ [("device", .str d)]
  | none => r

/-- The primary-action phase of `_dispatch_action`: the dispatch tables,
bare player actions, `set`, and the named complex handlers, before any
state modifier is applied. -/
def primary_action (env : Env) (c : NameCache) (cmd : Cmd) :
    Except DslErr Result × List PCall × NameCache :=
  let action := cmd.action
  match simple_target_actions.find? (fun e => decide (e.1 = action)) with
  | some e =>
    match cmd.target with
    | none => (.error (.missingField "target"), [], c)
    | some target =>
      let call := if e.2.1 = "song" then
          PCall.songCall e.2.2.1 (extract_id target e.2.2.2)
        else PCall.artistCall e.2.2.1 (extract_id target e.2.2.2)
      (.ok [("status", .str "ok"), ("action", .str action), ("target", .str target)],
       [call], c)
  | none =>
    match playlist_actions.find? (fun e => decide (e.1 = action)) with
    | some e =>
      match cmd.target with
      | none => (.error (.missingField "target"), [], c)
      | some target =>
        (.ok [("status", .str "ok"), ("action", .str action), ("target", .str target)],
         [.playlistCall e.2 (extract_id target "playlist")], c)
    | none =>
      if action = "pause" then
        (.ok [("status", .str "ok"), ("action", .str "pause")], [.pause], c)
      else if action = "resume" then
        (.ok [("status", .str "ok"), ("action", .str "resume")], [.resume], c)
      else if action = "set" then
        (.ok (setResult cmd), [], c)
      else if action = "play" then action_play env c cmd
      else if action = "skip" then action_skip c cmd
      else if action = "seek" then action_seek c cmd
      else if action = "queue" then action_queue env c cmd
      else if action = "playlist_add" then action_playlist_add c cmd
      else if action = "playlist_remove" then action_playlist_remove c cmd
      else if action = "playlist_create" then action_playlist_create env c cmd
      else (.error (.unknownAction action), [], c)

/-- `_dispatch_action(cmd)`: primary action, then state modifiers, then the
effective-volume annotation (`result["volume"] = min(volume, max_volume*100)`
only when both the command and the result carry a volume). -/
def dispatch_action (env : Env) (c : NameCache) (cmd : Cmd) :
    Except DslErr Result × List PCall × NameCache :=
  match primary_action env c cmd with
  | (.error e, t, c') => (.error e, t, c')
  | (.ok result, t1, c') =>
    let p := apply_state_modifiers env cmd
    match p.2 with
    | some e => (.error e, t1 ++ p.1, c')
    | none =>
      let result' := match cmd.volume with
        | some v =>
          if dictContains result "volume" then
            dictSet result "volume" (.rat (min ((v : ℚ)) (env.maxVolume * 100)))
          else result
        | none => result
      (.ok result', t1 ++ p.1, c')

/-! ### Queries get_queue / history and track enrichment -/

/-- Track metadata (`clautify.types.data.Metadata`, the fields the DSL core
touches). -/
structure Metadata where
  title : Option String
  albumTitle : Option String
  artistUri : Option String
  deriving Repr, DecidableEq

/-- A track object as provided by the player state. -/
structure Track where
  uri : String
  metadata : Option Metadata
  deriving Repr, DecidableEq

/-- The fields the enrichment code extracts from a `get_track_info` response
(the collaborator's JSON, already navigated; `none` models a failed call or
missing node, caught by the surrounding try/except and skipped). -/
structure TrackInfo where
  name : Option String
  albumName : Option String
  artistUri : Option String
  artistName : Option String

/-- Queue/history state read from the player and the `get_track_info`
collaborator. -/
structure QueryEnv where
  queueTracks : List Track
  historyTracks : List Track
  trackInfo : String → Option TrackInfo

/-- Does a track already carry a truthy metadata title? -/
def hasTitle (t : Track) : Bool :=
  match t.metadata with
  | some m => match m.title with
    | some s => s ≠ ""
    | none => false
  | none => false

/-- The last colon-delimited segment of a uri (`track.uri.split(":")[-1]`). -/
def lastColonSegment (uri : String) : String :=
  match (splitChar ':' uri.data).getLast? with
  | some l => ⟨l⟩
  | none => uri

/-- The API fallback of `_enrich_tracks` for a single track: fetch the track
info, fill in the metadata, and cache the names (failures are skipped). -/
def enrich_api (qenv : QueryEnv) (c : NameCache) (t : Track) :
    Track × NameCache :=
  match qenv.trackInfo (lastColonSegment t.uri) with
  | none => (t, c)
  | some info =>
    match info.name with
    | none => (t, c)
    | some nm =>
      if nm = "" then (t, c)
      else
        let t' := { t with metadata := some ⟨some nm, info.albumName, info.artistUri⟩ }
        let c' := c.add "track" nm t.uri
        let c'' := match info.artistName, info.artistUri with
          | some an, some au => if an ≠ "" ∧ au ≠ "" then c'.add "artist" an au else c'
          | _, _ => c'
        (t', c'')

/-- `_enrich_tracks` on a single track: skip tracks without a uri or with a
title; otherwise reverse-cache lookup first, else the API fallback. -/
def enrich_one (qenv : QueryEnv) (c : NameCache) (t : Track) :
    Track × NameCache :=
  if t.uri = "" then (t, c)
  else if hasTitle t then (t, c)
  else
    match c.name_for_uri t.uri with
    | some n =>
      if n ≠ "" then
        match t.metadata with
        | none => ({ t with metadata := some ⟨some n, none, none⟩ }, c)
        | some m => ({ t with metadata := some { m with title := some n } }, c)
      else enrich_api qenv c t
    | none => enrich_api qenv c t

/-- `_enrich_tracks(tracks)`: enrich each track in place, threading the
cache. -/
def enrich_tracks (qenv : QueryEnv) (c : NameCache) :
    List Track → List Track × NameCache
  | [] => ([], c)
  | t :: rest =>
    let p := enrich_one qenv c t
    let q := enrich_tracks qenv p.2 rest
    (p.1 :: q.1, q.2)

/-- `_query_get_queue(cmd)`: enrich only the first `limit` tracks
(`tracks[:limit]` is a mutable slice of the same list), return the whole
list and the limit. -/
def query_get_queue (qenv : QueryEnv) (c : NameCache) (limitArg : Option Nat) :
    (List Track × Nat) × NameCache :=
  let tracks := qenv.queueTracks
  let limit := limitArg.getD 10
  let p := enrich_tracks qenv c (tracks.take limit)
  ((p.1 ++ tracks.drop limit, limit), p.2)

/-- `_query_history(cmd)`: same shape as `get_queue` over the play history. -/
def query_history (qenv : QueryEnv) (c : NameCache) (limitArg : Option Nat) :
    (List Track × Nat) × NameCache :=
  let tracks := qenv.historyTracks
  let limit := limitArg.getD 10
  let p := enrich_tracks qenv c (tracks.take limit)
  ((p.1 ++ tracks.drop limit, limit), p.2)

/-! ### execute / retry (top level) and construction -/

/-- Exception values at the `execute` boundary: the stale-connection class
`WebSocketError`, a `DSLError` with its optional `__cause__`, or any other
exception class. -/
inductive Exn where
  | ws
  | dsl (cause : Option Exn)
  | other

/-- Is an escaped first-run failure of the stale-connection class — raised
directly, or present as the immediate `__cause__` of a `DSLError`? -/
def staleRaise {R : Type} (o : Except Exn R) : Bool :=
  match o with
  | .error .ws => true
  | .error (.dsl (some .ws)) => true
  | _ => false

/-- `_execute_once`: a `DSLError` re-raises unchanged; any other exception is
wrapped as `DSLError(f"{type(e).__name__}: {e}") from e`, i.e. with the
original as `__cause__`.  `inner` is the outcome of the dispatched body. -/
def execute_once {R : Type} (inner : Except Exn R) : Except Exn R :=
  match inner with
  | .ok r => .ok r
  | .error (.dsl c) => .error (.dsl c)
  | .error e => .error (.dsl (some e))

/-- `_reset_player`: discard the cached handle; a close failure is swallowed
(the `closeRaises` flag has no effect on the result). -/
def reset_player (player : Option Nat) (closeRaises : Bool) : Option Nat :=
  match player, closeRaises with
  | some _, _ => none
  | none, _ => none

/-- What `execute` observably did: how many times the command body ran,
whether the player handle was reset, and the handle afterwards. -/
structure ExecLog where
  runs : Nat
  reset : Bool
  player : Option Nat
  deriving Repr, DecidableEq

/-- `execute(cmd)`: run once; retry exactly once, after resetting the player,
iff the first failure is of the stale-connection class (directly or as the
`__cause__` of the `DSLError`); a second failure surfaces as `DSLError`.
`inner1`/`inner2` are the outcomes of the two possible body runs. -/
def execute {R : Type} (inner1 inner2 : Except Exn R) (p0 : Option Nat)
    (closeRaises : Bool) : Except Exn R × ExecLog :=
  match execute_once inner1 with
  | .ok r => (.ok r, ⟨1, false, p0⟩)
  | .error first =>
    match first with
    | .other => (.error .other, ⟨1, false, p0⟩)
    | _ =>
      let inner : Option Exn := match first with
        | .dsl c => c
        | e => some e
      let isWsFirst : Bool := match first with
        | .ws => true
        | _ => false
      let isWsInner : Bool := match inner with
        | some .ws => true
        | _ => false
      if isWsInner || isWsFirst then
        let p1 := reset_player p0 closeRaises
        match execute_once inner2 with
        | .ok r => (.ok r, ⟨2, true, p1⟩)
        | .error (.dsl c) => (.error (.dsl c), ⟨2, true, p1⟩)
        | .error e => (.error (.dsl (some e)), ⟨2, true, p1⟩)
      else (.error first, ⟨1, false, p0⟩)

/-- `SpotifyExecutor.__init__`: when `eager` is set, `_ = self.player` runs
with no surrounding try/except, so a failing `Player` construction escapes
the constructor. -/
def initExecutor (eager : Bool) (playerCtor : Except Exn Nat) :
    Except Exn (Option Nat) :=
  if eager then
    match playerCtor with
    | .ok p => .ok (some p)
    | .error e => .error e
  else .ok none

/-! ## Concrete instances used by witnesses -/

/-- A tiny cache used by witnesses. -/
def cacheEx : NameCache :=
  { cache := [(("track", "jazz"), "spotify:track:u1")]
    reverse := [("spotify:track:u1", "Jazz")]
    maxSize := 5000
    dirty := true }

/-- A fuzzy matcher that never matches (any matcher works for the claims,
which only exercise the exact branch). -/
def noFuzzy : String → List String → Option String := fun _ _ => none

/-- A collaborator environment used by witnesses: one device, ceiling 1. -/
def envEx : Env :=
  { devices := [("dev0", ⟨"Den", "dev0", 32768⟩)]
    activeId := "dev0"
    deviceId := "dev0"
    maxVolume := 1
    createdPlaylistId := "spotify:playlist:new"
    fuzzy := noFuzzy }

/-- The witness environment with the ceiling configured to 0.5. -/
def envExHalf : Env := { envEx with maxVolume := 1 / 2 }

/-- An environment with no devices (used to fail the device modifier). -/
def envNoDevices : Env := { envEx with devices := [] }

/-- Is a collaborator call one issued by `_apply_state_modifiers` (volume,
volume_rel, mode or device application)?  Used to state that a failing
modifier issues no compensating call for the primary action. -/
def isModifierCall : PCall → Bool
  | .setVolume _ => true
  | .setShuffle _ => true
  | .repeatTrack _ => true
  | .transferPlayer _ _ => true
  | _ => false

/-! ## Lemmas about the dict helpers and eviction -/

/-- Every forward entry's identifier has a binding in the reverse index. -/
def coversL (cl : List (CKey × String)) (rl : List (String × String)) : Prop :=
  ∀ e ∈ cl, ∃ p ∈ rl, p.1 = e.2

instance (cl : List (CKey × String)) (rl : List (String × String)) :
    Decidable (coversL cl rl) :=
  List.decidableBAll _ cl

theorem evictFrom_length_le (max : Nat) :
    ∀ (c : List (CKey × String)) (r : List (String × String)),
      (evictFrom max c r).1.length ≤ max
  | [], _ => by simp [evictFrom]
  | e :: rest, r => by
    rw [evictFrom]
    split
    · next h => exact h
    · exact evictFrom_length_le max rest _

theorem evictFrom_suffix (max : Nat) :
    ∀ (c : List (CKey × String)) (r : List (String × String)),
      (evictFrom max c r).1.IsSuffix c
  | [], _ => by simp [evictFrom]
  | e :: rest, r => by
    rw [evictFrom]
    split
    · exact List.suffix_refl _
    · exact (evictFrom_suffix max rest _).trans (List.suffix_cons e rest)

theorem evictFrom_of_le (max : Nat) (c : List (CKey × String))
    (r : List (String × String)) (h : c.length ≤ max) :
    evictFrom max c r = (c, r) := by
  cases c with
  | nil => simp [evictFrom]
  | cons e rest => rw [evictFrom, if_pos h]

theorem mem_dictSet_self {K V : Type} [DecidableEq K] (l : List (K × V))
    (k : K) (v : V) : (k, v) ∈ dictSet l k v := by
  unfold dictSet
  split
  · next h =>
    rw [List.any_eq_true] at h
    obtain ⟨e, he, hk⟩ := h
    rw [decide_eq_true_eq] at hk
    exact List.mem_map.2 ⟨e, he, by rw [if_pos hk]⟩
  · exact List.mem_append_right _ (List.mem_singleton.2 rfl)

theorem mem_dictSet_of_ne {K V : Type} [DecidableEq K] {l : List (K × V)}
    {k' : K} {v' : V} (k : K) (v : V) (h : (k', v') ∈ l) (hne : k' ≠ k) :
    (k', v') ∈ dictSet l k v := by
  unfold dictSet
  split
  · exact List.mem_map.2 ⟨(k', v'), h, by rw [if_neg hne]⟩
  · exact List.mem_append_left _ h

theorem dictSet_of_not_mem_keys {K V : Type} [DecidableEq K]
    {l : List (K × V)} {k : K} (v : V) (h : k ∉ l.map Prod.fst) :
    dictSet l k v = l ++ [(k, v)] := by
  unfold dictSet
  rw [if_neg]
  intro hany
  rw [List.any_eq_true] at hany
  obtain ⟨e, he, hk⟩ := hany
  rw [decide_eq_true_eq] at hk
  exact h (List.mem_map.2 ⟨e, he, hk⟩)

theorem filter_ne_of_not_mem_keys {K V : Type} [DecidableEq K]
    {l : List (K × V)} {k : K} (h : k ∉ l.map Prod.fst) :
    l.filter (fun e => decide (e.1 ≠ k)) = l := by
  apply List.filter_eq_self.2
  intro e he
  rw [decide_eq_true_eq]
  intro hk
  exact h (List.mem_map.2 ⟨e, he, hk⟩)

theorem filter_ne_length {K V : Type} [DecidableEq K] :
    ∀ (l : List (K × V)) (k : K), (l.map Prod.fst).Nodup →
      k ∈ l.map Prod.fst →
      (l.filter (fun e => decide (e.1 ≠ k))).length + 1 = l.length := by
  intro l k hnd hk
  induction l with
  | nil => simp at hk
  | cons e rest ih =>
    rw [List.map_cons, List.nodup_cons] at hnd
    rw [List.map_cons, List.mem_cons] at hk
    rcases hk with hk | hk
    · rw [List.filter_cons_of_neg, filter_ne_of_not_mem_keys (hk ▸ hnd.1)]
      · simp
      · simp [hk]
    · rw [List.filter_cons_of_pos]
      · simp only [List.length_cons]
        rw [ih hnd.2 hk]
      · simp only [decide_eq_true_eq]
        intro he
        exact hnd.1 (he ▸ hk)

theorem evictFrom_covers (max : Nat) :
    ∀ (cl : List (CKey × String)) (rl : List (String × String)),
      coversL cl rl → (cl.map (fun e => e.2)).Nodup →
      coversL (evictFrom max cl rl).1 (evictFrom max cl rl).2
  | [], rl => by intro h _; simpa [evictFrom] using h
  | e :: rest, rl => by
    intro hcov hnd
    rw [evictFrom]
    split
    · exact hcov
    · rw [List.map_cons, List.nodup_cons] at hnd
      refine evictFrom_covers max rest (dictRemove rl e.2) ?_ hnd.2
      intro e' he'
      obtain ⟨p, hp, hpe⟩ := hcov e' (List.mem_cons_of_mem _ he')
      refine ⟨p, List.mem_filter.2 ⟨hp, ?_⟩, hpe⟩
      rw [decide_eq_true_eq, hpe]
      intro hc
      exact hnd.1 (hc ▸ List.mem_map.2 ⟨e', he', rfl⟩)

theorem NameCache.add_of_nonempty (c : NameCache) (kind name uri : String)
    (hn : name ≠ "") (hu : uri ≠ "") :
    c.add kind name uri =
      { cache := (evictFrom c.maxSize (odSetMoveEnd c.cache (kind, pyNorm name) uri)
          (dictSet c.reverse uri name)).1
        reverse := (evictFrom c.maxSize (odSetMoveEnd c.cache (kind, pyNorm name) uri)
          (dictSet c.reverse uri name)).2
        maxSize := c.maxSize
        dirty := true } := by
  unfold NameCache.add
  rw [if_pos ⟨hn, hu⟩]

/-! ### Splitting and folding lemmas for persistence -/

theorem splitOnce_join_curr (k n : String) (hk : k ∈ validKinds) :
    splitOnce (k ++ sepStr ++ n) sepStr = some (k, n) := by
  have hdata : (k ++ sepStr ++ n).data = k.data ++ sepStr.data ++ n.data := by
    rw [String.data_append, String.data_append]
  unfold splitOnce
  rw [hdata]
  unfold validKinds at hk
  fin_cases hk
  · rfl
  · rfl
  · rfl
  · rfl

theorem splitOnce_join_legacy (k n : String) (hk : k ∈ validKinds) :
    splitOnce (k ++ legacySepStr ++ n) legacySepStr = some (k, n) := by
  have hdata : (k ++ legacySepStr ++ n).data = k.data ++ legacySepStr.data ++ n.data := by
    rw [String.data_append, String.data_append]
  unfold splitOnce
  rw [hdata]
  unfold validKinds at hk
  fin_cases hk
  · rfl
  · rfl
  · rfl
  · rfl

theorem splitOnce_legacy_curr_none (k n : String) (hk : k ∈ validKinds)
    (hn : splitOnceChars sepStr.data n.data = none) :
    splitOnce (k ++ legacySepStr ++ n) sepStr = none := by
  have hdata : (k ++ legacySepStr ++ n).data = k.data ++ legacySepStr.data ++ n.data := by
    rw [String.data_append, String.data_append]
  unfold splitOnce
  rw [hdata]
  rw [show sepStr.data = ['|', '|'] from rfl] at hn
  unfold validKinds at hk
  fin_cases hk <;> simp [splitOnceChars, leadsWith, sepStr, legacySepStr, hn]

theorem joinKey_inj_on {k k' : CKey} (hk : k.1 ∈ validKinds)
    (hk' : k'.1 ∈ validKinds) (h : joinKey k = joinKey k') : k = k' := by
  have h1 : splitOnce (joinKey k) sepStr = some (k.1, k.2) :=
    splitOnce_join_curr k.1 k.2 hk
  have h2 : splitOnce (joinKey k') sepStr = some (k'.1, k'.2) :=
    splitOnce_join_curr k'.1 k'.2 hk'
  rw [h, h2] at h1
  injection h1 with h1
  have h3 := h1.symm
  exact Prod.ext (congrArg Prod.fst h3) (congrArg Prod.snd h3)

theorem joinLegacy_inj_on {k k' : CKey} (hk : k.1 ∈ validKinds)
    (hk' : k'.1 ∈ validKinds)
    (h : k.1 ++ legacySepStr ++ k.2 = k'.1 ++ legacySepStr ++ k'.2) : k = k' := by
  have h1 : splitOnce (k.1 ++ legacySepStr ++ k.2) legacySepStr = some (k.1, k.2) :=
    splitOnce_join_legacy k.1 k.2 hk
  have h2 : splitOnce (k'.1 ++ legacySepStr ++ k'.2) legacySepStr = some (k'.1, k'.2) :=
    splitOnce_join_legacy k'.1 k'.2 hk'
  rw [h, h2] at h1
  injection h1 with h1
  have h3 := h1.symm
  exact Prod.ext (congrArg Prod.fst h3) (congrArg Prod.snd h3)

theorem foldl_dictSet_append {K V : Type} [DecidableEq K] :
    ∀ (l acc : List (K × V)), (l.map Prod.fst).Nodup →
      (∀ e ∈ l, e.1 ∉ acc.map Prod.fst) →
      l.foldl (fun a e => dictSet a e.1 e.2) acc = acc ++ l
  | [], acc => by simp
  | ⟨k1, v1⟩ :: rest, acc => by
    intro hnd hdisj
    rw [List.foldl_cons]
    rw [List.map_cons, List.nodup_cons] at hnd
    rw [dictSet_of_not_mem_keys v1 (hdisj ⟨k1, v1⟩ (List.mem_cons_self _ _))]
    rw [foldl_dictSet_append rest (acc ++ [(k1, v1)]) hnd.2 ?_]
    · rw [List.append_assoc]
      rfl
    · intro e' he'
      rw [List.map_append, List.mem_append]
      rintro (h | h)
      · exact hdisj e' (List.mem_cons_of_mem _ he') h
      · rw [List.map_singleton, List.mem_singleton] at h
        exact hnd.1 (h ▸ List.mem_map.2 ⟨e', he', rfl⟩)

theorem loadStep_foldl_curr :
    ∀ (l acc : List (CKey × String)),
      (∀ e ∈ l, e.1.1 ∈ validKinds) → (l.map Prod.fst).Nodup →
      (∀ e ∈ l, e.1 ∉ acc.map Prod.fst) →
      (l.map (fun e => (joinKey e.1, e.2))).foldl loadStep acc = acc ++ l
  | [], acc => by simp
  | ⟨⟨k1, n1⟩, u1⟩ :: rest, acc => by
    intro hknd hnd hdisj
    rw [List.map_cons, List.foldl_cons]
    have hstep : loadStep acc (joinKey (k1, n1), u1) = acc ++ [((k1, n1), u1)] := by
      have hsplit := splitOnce_join_curr k1 n1 (hknd _ (List.mem_cons_self _ _))
      simp only [loadStep, joinKey, hsplit]
      exact dictSet_of_not_mem_keys u1 (hdisj _ (List.mem_cons_self _ _))
    rw [hstep]
    rw [List.map_cons, List.nodup_cons] at hnd
    rw [loadStep_foldl_curr rest (acc ++ [((k1, n1), u1)])
        (fun e he => hknd e (List.mem_cons_of_mem _ he)) hnd.2 ?_]
    · rw [List.append_assoc]
      rfl
    · intro e' he'
      rw [List.map_append, List.mem_append]
      rintro (h | h)
      · exact hdisj e' (List.mem_cons_of_mem _ he') h
      · rw [List.map_singleton, List.mem_singleton] at h
        exact hnd.1 (h ▸ List.mem_map.2 ⟨e', he', rfl⟩)

theorem loadStep_foldl_legacy :
    ∀ (l acc : List (CKey × String)),
      (∀ e ∈ l, e.1.1 ∈ validKinds) →
      (∀ e ∈ l, splitOnceChars sepStr.data e.1.2.data = none) →
      (l.map Prod.fst).Nodup →
      (∀ e ∈ l, e.1 ∉ acc.map Prod.fst) →
      (l.map (fun e => (e.1.1 ++ legacySepStr ++ e.1.2, e.2))).foldl loadStep acc =
        acc ++ l
  | [], acc => by simp
  | ⟨⟨k1, n1⟩, u1⟩ :: rest, acc => by
    intro hknd hsep hnd hdisj
    rw [List.map_cons, List.foldl_cons]
    have hstep : loadStep acc (k1 ++ legacySepStr ++ n1, u1) = acc ++ [((k1, n1), u1)] := by
      have hnone := splitOnce_legacy_curr_none k1 n1 (hknd _ (List.mem_cons_self _ _))
        (hsep _ (List.mem_cons_self _ _))
      have hsplit := splitOnce_join_legacy k1 n1 (hknd _ (List.mem_cons_self _ _))
      simp only [loadStep, hnone, hsplit]
      exact dictSet_of_not_mem_keys u1 (hdisj _ (List.mem_cons_self _ _))
    rw [hstep]
    rw [List.map_cons, List.nodup_cons] at hnd
    rw [loadStep_foldl_legacy rest (acc ++ [((k1, n1), u1)])
        (fun e he => hknd e (List.mem_cons_of_mem _ he))
        (fun e he => hsep e (List.mem_cons_of_mem _ he)) hnd.2 ?_]
    · rw [List.append_assoc]
      rfl
    · intro e' he'
      rw [List.map_append, List.mem_append]
      rintro (h | h)
      · exact hdisj e' (List.mem_cons_of_mem _ he') h
      · rw [List.map_singleton, List.mem_singleton] at h
        exact hnd.1 (h ▸ List.mem_map.2 ⟨e', he', rfl⟩)

/-! ## Claim theorems -/

/-- C4 counterexample: a record whose forward key joins ("track", "a||b")
with the legacy NUL separator does NOT load back to that mapping, because
the loader tries the current two-character separator first and it occurs
inside the name: the claim's legacy round-trip fails at this input. -/
theorem C4_legacy_sep_cex :
    (legacyRecordOf
        { cache := [(("track", "a||b"), "u")], reverse := [],
          maxSize := 5000, dirty := true }).fwd = [("track\x00a||b", "u")] ∧
    (loadRecord { fwd := [("track\x00a||b", "u")], rev := [] } 5000).cache
      = [(("track\x00a", "b"), "u")] ∧
    (("track\x00a", "b") : CKey) ≠ ("track", "a||b") := by
  refine ⟨by decide, by decide, by decide⟩

/-- C4 (amended): for a dirty cache whose kinds come from the data model,
whose keys are unique and whose size is within the default ceiling, save
writes the record and reloading it reconstructs exactly the same forward
and reverse maps; the same record joined with the legacy single-byte
separator also reloads exactly — provided no stored name contains the
current two-character separator (without that proviso the legacy key
mis-splits, see the counterexample). -/
theorem C4_save_reload (c : NameCache)
    (hd : c.dirty = true)
    (hsize : c.cache.length ≤ 5000)
    (hkinds : ∀ e ∈ c.cache, e.1.1 ∈ validKinds)
    (hnd : (c.cache.map Prod.fst).Nodup) :
    (c.saveRecord = some (recordOf c) ∧
      (loadRecord (recordOf c) 5000).cache = c.cache ∧
      (loadRecord (recordOf c) 5000).reverse = c.reverse) ∧
    ((∀ e ∈ c.cache, splitOnceChars sepStr.data e.1.2.data = none) →
      (loadRecord (legacyRecordOf c) 5000).cache = c.cache ∧
      (loadRecord (legacyRecordOf c) 5000).reverse = c.reverse) := by
  have hkey_of_mem : ∀ x ∈ c.cache.map Prod.fst, x.1 ∈ validKinds := by
    intro x hx
    obtain ⟨e, he, rfl⟩ := List.mem_map.1 hx
    exact hkinds e he
  have hndJ : ((c.cache.map (fun e => (joinKey e.1, e.2))).map Prod.fst).Nodup := by
    rw [List.map_map]
    show (c.cache.map (fun e => joinKey e.1)).Nodup
    have h1 : c.cache.map (fun e => joinKey e.1) = (c.cache.map Prod.fst).map joinKey := by
      rw [List.map_map]
      rfl
    rw [h1]
    refine List.Nodup.map_on ?_ hnd
    intro x hx y hy hxy
    exact joinKey_inj_on (hkey_of_mem x hx) (hkey_of_mem y hy) hxy
  have hfwd : (recordOf c).fwd = c.cache.map (fun e => (joinKey e.1, e.2)) := by
    show c.cache.foldl (fun acc e => dictSet acc (joinKey e.1) e.2) [] = _
    have h2 : (c.cache.map (fun e => (joinKey e.1, e.2))).foldl
        (fun a e => dictSet a e.1 e.2) []
        = c.cache.foldl (fun acc e => dictSet acc (joinKey e.1) e.2) [] := by
      rw [List.foldl_map]
    rw [← h2, foldl_dictSet_append _ [] hndJ (by simp), List.nil_append]
  have hload : loadRecord (recordOf c) 5000 =
      { cache := c.cache, reverse := c.reverse, maxSize := 5000, dirty := false } := by
    simp only [loadRecord]
    rw [hfwd, loadStep_foldl_curr c.cache [] hkinds hnd (by simp), List.nil_append]
    show ({ cache := (evictFrom 5000 c.cache c.reverse).1,
            reverse := (evictFrom 5000 c.cache c.reverse).2,
            maxSize := 5000, dirty := false } : NameCache) = _
    rw [evictFrom_of_le 5000 c.cache c.reverse hsize]
  refine ⟨⟨?_, by rw [hload], by rw [hload]⟩, ?_⟩
  · unfold NameCache.saveRecord
    rw [if_pos hd]
  · intro hsep
    have hndL : ((c.cache.map (fun e => (e.1.1 ++ legacySepStr ++ e.1.2, e.2))).map
        Prod.fst).Nodup := by
      rw [List.map_map]
      show (c.cache.map (fun e => e.1.1 ++ legacySepStr ++ e.1.2)).Nodup
      have h1 : c.cache.map (fun e => e.1.1 ++ legacySepStr ++ e.1.2)
          = (c.cache.map Prod.fst).map (fun k => k.1 ++ legacySepStr ++ k.2) := by
        rw [List.map_map]
        rfl
      rw [h1]
      refine List.Nodup.map_on ?_ hnd
      intro x hx y hy hxy
      exact joinLegacy_inj_on (hkey_of_mem x hx) (hkey_of_mem y hy) hxy
    have hfwdL : (legacyRecordOf c).fwd
        = c.cache.map (fun e => (e.1.1 ++ legacySepStr ++ e.1.2, e.2)) := by
      show c.cache.foldl (fun acc e => dictSet acc (e.1.1 ++ legacySepStr ++ e.1.2) e.2) [] = _
      have h2 : (c.cache.map (fun e => (e.1.1 ++ legacySepStr ++ e.1.2, e.2))).foldl
          (fun a e => dictSet a e.1 e.2) []
          = c.cache.foldl (fun acc e => dictSet acc (e.1.1 ++ legacySepStr ++ e.1.2) e.2) [] := by
        rw [List.foldl_map]
      rw [← h2, foldl_dictSet_append _ [] hndL (by simp), List.nil_append]
    have hloadL : loadRecord (legacyRecordOf c) 5000 =
        { cache := c.cache, reverse := c.reverse, maxSize := 5000, dirty := false } := by
      simp only [loadRecord]
      rw [hfwdL, loadStep_foldl_legacy c.cache [] hkinds hsep hnd (by simp), List.nil_append]
      show ({ cache := (evictFrom 5000 c.cache c.reverse).1,
              reverse := (evictFrom 5000 c.cache c.reverse).2,
              maxSize := 5000, dirty := false } : NameCache) = _
      rw [evictFrom_of_le 5000 c.cache c.reverse hsize]
    exact ⟨by rw [hloadL], by rw [hloadL]⟩

/-- Witness for C4 at a concrete one-entry dirty cache. -/
theorem C4_save_reload_witness :
    (cacheEx.saveRecord = some (recordOf cacheEx) ∧
      (loadRecord (recordOf cacheEx) 5000).cache = cacheEx.cache ∧
      (loadRecord (recordOf cacheEx) 5000).reverse = cacheEx.reverse) ∧
    ((loadRecord (legacyRecordOf cacheEx) 5000).cache = cacheEx.cache ∧
      (loadRecord (legacyRecordOf cacheEx) 5000).reverse = cacheEx.reverse) := by
  obtain ⟨h1, h2⟩ := C4_save_reload cacheEx (by decide) (by decide) (by decide) (by decide)
  exact ⟨h1, h2 (by decide)⟩

/-- C5: the claim says any parse or structural error in the persisted file
yields an empty cache instead of failing construction.  The code catches
parse errors (second conjunct), but a file whose JSON value is not an object
— for example the content `[]` — makes `raw.get("cache", {})` raise an
`AttributeError`, which is not in the handled exception tuple and escapes
the constructor (first conjunct): the code contradicts its own
"corrupted file — start fresh" handler. -/
theorem C5_load_corruption_gap :
    loadParsed (some (PyVal.arr [])) = .error .attributeError ∧
    loadParsed none = .ok ([], .obj []) :=
  ⟨rfl, rfl⟩

/-- C6: once `(kind, name) -> uri` is present in the forward map (added and
not yet evicted or overwritten), `resolve` returns `uri` for every variant
`v` of `name` that normalises the same under lowercase+trim — i.e. every
case or leading/trailing-whitespace variant — with the same kind. -/
theorem C6_resolve_variant (fuzzy : String → List String → Option String)
    (c : NameCache) (kind name uri v : String)
    (hpresent : odLookup c.cache (kind, pyNorm name) = some uri)
    (hvariant : pyNorm v = pyNorm name) :
    (NameCache.resolve fuzzy c kind v).1 = some uri := by
  unfold NameCache.resolve
  simp only [hvariant, hpresent]

/-- Witness for C6 at a concrete cache and the variant "  JaZz " of "jazz". -/
theorem C6_resolve_variant_witness :
    odLookup cacheEx.cache ("track", pyNorm "jazz") = some "spotify:track:u1" ∧
    pyNorm "  JaZz " = pyNorm "jazz" ∧
    (NameCache.resolve noFuzzy cacheEx "track" "  JaZz ").1 = some "spotify:track:u1" :=
  ⟨by decide, by decide,
   C6_resolve_variant noFuzzy cacheEx "track" "jazz" "spotify:track:u1" "  JaZz "
     (by decide) (by decide)⟩

/-- C3 counterexample: the claim's invariant "every forward entry's
identifier has a reverse-index counterpart" fails when two forward entries
share an identifier and one is evicted: with ceiling 1, adding
("track","A") -> "u" then ("track","B") -> "u" evicts the first entry and
pops "u" from the reverse index, orphaning the surviving entry. -/
theorem C3_reverse_counterpart_cex :
    ¬ coversL
      ((((⟨[], [], 1, false⟩ : NameCache).add "track" "A" "u").add "track" "B" "u").cache)
      ((((⟨[], [], 1, false⟩ : NameCache).add "track" "A" "u").add "track" "B" "u").reverse) := by
  decide

/-- C3 (amended): after `add` with non-empty name and identifier, the forward
map holds at most the configured ceiling of entries; eviction removes
least-recently-touched entries first (the result is a suffix of the
recency-ordered map after the insert) and removes the evicted identifier's
reverse-index counterpart with it; re-adding an existing (kind, name) pair
refreshes recency without growing the map; and — provided the cached
identifiers are pairwise distinct and the inserted identifier is held at
most by the inserted key itself — every forward entry's identifier keeps a
reverse-index counterpart.  (Any sharing breaks the counterpart invariant:
evicting one holder of a shared identifier pops the shared reverse entry
and orphans the surviving holders, whether the shared identifier is the
inserted one or an older one.) -/
theorem C3_add_invariants (c : NameCache) (kind name uri : String)
    (hn : name ≠ "") (hu : uri ≠ "") :
    (c.add kind name uri).cache.length ≤ c.maxSize ∧
    (c.add kind name uri).cache.IsSuffix
      (odSetMoveEnd c.cache (kind, pyNorm name) uri) ∧
    ((c.cache.map Prod.fst).Nodup → (kind, pyNorm name) ∈ c.cache.map Prod.fst →
      c.cache.length ≤ c.maxSize →
      (c.add kind name uri).cache.length = c.cache.length ∧
      (c.add kind name uri).cache.getLast? = some ((kind, pyNorm name), uri)) ∧
    (coversL c.cache c.reverse → (c.cache.map (fun e => e.2)).Nodup →
      (∀ e ∈ c.cache, e.2 = uri → e.1 = (kind, pyNorm name)) →
      coversL (c.add kind name uri).cache (c.add kind name uri).reverse) := by
  rw [NameCache.add_of_nonempty c kind name uri hn hu]
  set key : CKey := (kind, pyNorm name) with hkey
  refine ⟨evictFrom_length_le _ _ _, evictFrom_suffix _ _ _, ?_, ?_⟩
  · intro hnd hmem hlen
    have hlen1 : (odSetMoveEnd c.cache key uri).length = c.cache.length := by
      unfold odSetMoveEnd
      rw [List.length_append, List.length_singleton]
      exact filter_ne_length c.cache key hnd hmem
    rw [evictFrom_of_le _ _ _ (by rw [hlen1]; exact hlen)]
    refine ⟨hlen1, ?_⟩
    unfold odSetMoveEnd
    rw [List.getLast?_append]
    rfl
  · intro hcov hndu hshared
    refine evictFrom_covers _ _ _ ?_ ?_
    · intro e' he'
      rcases List.mem_append.1 he' with hf | hs
      · have hmem := List.mem_filter.1 hf
        have hne : e'.1 ≠ key := by simpa using hmem.2
        obtain ⟨p, hp, hpe⟩ := hcov e' hmem.1
        have hpu : p.1 ≠ uri := by
          rw [hpe]
          intro h2
          exact hne (hshared e' hmem.1 h2)
        refine ⟨p, ?_, hpe⟩
        have h4 : ((p.1, p.2) : String × String) ∈ dictSet c.reverse uri name :=
          mem_dictSet_of_ne uri name (by simpa using hp) hpu
        simpa using h4
      · rcases List.mem_singleton.1 hs with rfl
        exact ⟨(uri, name), mem_dictSet_self c.reverse uri name, rfl⟩
    · unfold odSetMoveEnd
      rw [List.map_append, List.nodup_append]
      refine ⟨?_, by simp, ?_⟩
      · exact ((List.filter_sublist c.cache).map _).nodup hndu
      · intro u hu1 hu2
        rw [List.map_singleton, List.mem_singleton] at hu2
        obtain ⟨e'', he'', heq⟩ := List.mem_map.1 hu1
        have hmem := List.mem_filter.1 he''
        have hne : e''.1 ≠ key := by simpa using hmem.2
        exact hne (hshared e'' hmem.1 (by rw [heq, hu2]))

/-- Witness for C3 at a concrete cache: re-adding the existing
("track", "jazz") pair with all hypotheses satisfied. -/
theorem C3_add_invariants_witness :
    (cacheEx.add "track" "Jazz" "spotify:track:u1").cache.length ≤ cacheEx.maxSize ∧
    (cacheEx.add "track" "Jazz" "spotify:track:u1").cache.length = cacheEx.cache.length ∧
    coversL (cacheEx.add "track" "Jazz" "spotify:track:u1").cache
      (cacheEx.add "track" "Jazz" "spotify:track:u1").reverse := by
  obtain ⟨h1, _, h3, h4⟩ :=
    C3_add_invariants cacheEx "track" "Jazz" "spotify:track:u1"
      (by decide) (by decide)
  refine ⟨h1, (h3 (by decide) (by decide) (by decide)).1, h4 ?_ ?_ ?_⟩
  · decide
  · decide
  · decide

/-! ### Modifier-trace lemmas -/

theorem modVolume_calls (env : Env) (cmd : Cmd) :
    ∀ call ∈ (modVolume env cmd).1, isModifierCall call = true := by
  unfold modVolume
  split
  · simp
  · split
    · simp [isModifierCall]
    · simp

theorem modVolumeRel_calls (env : Env) (cmd : Cmd) :
    ∀ call ∈ (modVolumeRel env cmd).1, isModifierCall call = true := by
  unfold modVolumeRel
  split
  · simp
  · split
    · simp
    · simp [isModifierCall]

theorem modMode_calls (cmd : Cmd) :
    ∀ call ∈ (modMode cmd).1, isModifierCall call = true := by
  unfold modMode
  split
  · simp
  · simp [isModifierCall]

theorem modDevice_calls (env : Env) (cmd : Cmd) :
    ∀ call ∈ (modDevice env cmd).1, isModifierCall call = true := by
  unfold modDevice
  split
  · simp
  · split
    · simp [isModifierCall]
    · simp

theorem apply_state_modifiers_calls (env : Env) (cmd : Cmd) :
    ∀ call ∈ (apply_state_modifiers env cmd).1, isModifierCall call = true := by
  have h1 := modVolume_calls env cmd
  have h2 := modVolumeRel_calls env cmd
  have h3 := modMode_calls cmd
  have h4 := modDevice_calls env cmd
  simp only [apply_state_modifiers]
  split
  · exact h1
  · split
    · intro call hc
      rcases List.mem_append.1 hc with h | h
      · exact h1 call h
      · exact h2 call h
    · split
      · intro call hc
        rcases List.mem_append.1 hc with h | h
        · rcases List.mem_append.1 h with h' | h'
          · exact h1 call h'
          · exact h2 call h'
        · exact h3 call h
      · split
        · intro call hc
          rcases List.mem_append.1 hc with h | h
          · rcases List.mem_append.1 h with h' | h'
            · rcases List.mem_append.1 h' with h'' | h''
              · exact h1 call h''
              · exact h2 call h''
            · exact h3 call h'
          · exact h4 call h
        · intro call hc
          rcases List.mem_append.1 hc with h | h
          · rcases List.mem_append.1 h with h' | h'
            · rcases List.mem_append.1 h' with h'' | h''
              · exact h1 call h''
              · exact h2 call h''
            · exact h3 call h'
          · exact h4 call h

/-- C9: when the primary action succeeds (result `r`, calls `t1`) and the
modifier phase fails with `e` after issuing calls `t2`, the command fails
overall while every call already made stands: the final trace is exactly
`t1 ++ t2`, nothing is removed, and `t2` contains only modifier-application
calls — no compensating call for the primary action is ever issued. -/
theorem C9_no_rollback (env : Env) (c : NameCache) (cmd : Cmd)
    (r : Result) (t1 : List PCall) (c' : NameCache) (t2 : List PCall) (e : DslErr)
    (hp : primary_action env c cmd = (.ok r, t1, c'))
    (hm : apply_state_modifiers env cmd = (t2, some e)) :
    dispatch_action env c cmd = (.error e, t1 ++ t2, c') ∧
    (∀ call ∈ t2, isModifierCall call = true) := by
  constructor
  · unfold dispatch_action
    rw [hp]
    simp only [hm]
  · intro call hc
    exact apply_state_modifiers_calls env cmd call (by rw [hm]; exact hc)

/-- Witness for C9: `pause mode shuffle on "Garage"` with no devices — the
pause and the two mode calls stand, the device modifier fails with the
available-device listing, and the command fails overall. -/
theorem C9_no_rollback_witness :
    dispatch_action envNoDevices cacheEx
        { action := "pause", mode := some "shuffle", device := some "Garage" } =
      (.error (.deviceNotFound "Garage" []),
       [.pause, .setShuffle true, .repeatTrack false], cacheEx) ∧
    (∀ call ∈ [PCall.setShuffle true, PCall.repeatTrack false],
      isModifierCall call = true) := by
  exact C9_no_rollback envNoDevices cacheEx
    { action := "pause", mode := some "shuffle", device := some "Garage" }
    [("status", .str "ok"), ("action", .str "pause")] [.pause] cacheEx
    [.setShuffle true, .repeatTrack false] (.deviceNotFound "Garage" [])
    (by decide) (by decide)

/-- C7: for any action command carrying an absolute volume `v`:
(1) when `v` is outside 0–100 the modifier phase fails with the volume
validation error and — whenever the primary action succeeded — the whole
command fails with it; (2) when `v` is in range, the player is sent the
fraction `min(v/100, ceiling)` as the first modifier call; (3) for a `set`
command carrying only the volume modifier, the reported result volume is
the capped value `min(v, ceiling*100)`, not the raw request. -/
theorem C7_volume_capping (env : Env) (c : NameCache) (cmd : Cmd) (v : Int)
    (hv : cmd.volume = some v) :
    ((¬ (0 ≤ v ∧ v ≤ 100)) →
      apply_state_modifiers env cmd = ([], some (.volumeRange v)) ∧
      (∀ r t c', primary_action env c cmd = (.ok r, t, c') →
        dispatch_action env c cmd = (.error (.volumeRange v), t, c'))) ∧
    ((0 ≤ v ∧ v ≤ 100) →
      ∃ rest, (apply_state_modifiers env cmd).1
        = PCall.setVolume (min ((v : ℚ) / 100) env.maxVolume) :: rest) ∧
    ((0 ≤ v ∧ v ≤ 100) → cmd.action = "set" → cmd.volumeRel = none →
      cmd.mode = none → cmd.device = none →
      dispatch_action env c cmd =
        (.ok [("status", .str "ok"), ("action", .str "set"),
              ("volume", .rat (min ((v : ℚ)) (env.maxVolume * 100)))],
         [.setVolume (min ((v : ℚ) / 100) env.maxVolume)], c)) := by
  refine ⟨?_, ?_, ?_⟩
  · intro hout
    have hm1 : modVolume env cmd = ([], some (.volumeRange v)) := by
      unfold modVolume
      simp only [hv]
      rw [if_neg hout]
    have ham : apply_state_modifiers env cmd = ([], some (.volumeRange v)) := by
      simp only [apply_state_modifiers, hm1]
    refine ⟨ham, ?_⟩
    intro r t c' hp
    unfold dispatch_action
    rw [hp]
    simp only [ham, List.append_nil]
  · intro hin
    have hm1 : modVolume env cmd
        = ([PCall.setVolume (min ((v : ℚ) / 100) env.maxVolume)], none) := by
      unfold modVolume
      simp only [hv]
      rw [if_pos hin]
    simp only [apply_state_modifiers, hm1]
    split
    · exact ⟨_, rfl⟩
    · split
      · exact ⟨_, rfl⟩
      · split
        · exact ⟨_, rfl⟩
        · exact ⟨_, rfl⟩
  · intro hin hset hrel hmode hdev
    have hm1 : modVolume env cmd
        = ([PCall.setVolume (min ((v : ℚ) / 100) env.maxVolume)], none) := by
      unfold modVolume
      simp only [hv]
      rw [if_pos hin]
    have hm2 : modVolumeRel env cmd = ([], none) := by
      unfold modVolumeRel
      rw [hrel]
    have hm3 : modMode cmd = ([], none) := by
      unfold modMode
      rw [hmode]
    have hm4 : modDevice env cmd = ([], none) := by
      unfold modDevice
      rw [hdev]
    have ham : apply_state_modifiers env cmd
        = ([PCall.setVolume (min ((v : ℚ) / 100) env.maxVolume)], none) := by
      simp only [apply_state_modifiers, hm1, hm2, hm3, hm4, List.append_nil]
    have hsr : setResult cmd
        = [("status", .str "ok"), ("action", .str "set"), ("volume", .int v)] := by
      unfold setResult
      simp only [hv, hrel, hmode, hdev]
      rfl
    have hprim : primary_action env c cmd = (.ok (setResult cmd), [], c) := by
      unfold primary_action
      rw [hset]
      rfl
    unfold dispatch_action
    rw [hprim]
    simp only [ham, hv, hsr, List.nil_append]
    rfl

/-- Witness for C7: volume 70 under ceiling 1 and under ceiling 0.5, plus
the out-of-range failure at volume 150. -/
theorem C7_volume_capping_witness :
    (dispatch_action envEx cacheEx { action := "set", volume := some 70 } =
      (.ok [("status", .str "ok"), ("action", .str "set"),
            ("volume", .rat (min (((70 : Int) : ℚ)) (envEx.maxVolume * 100)))],
       [.setVolume (min (((70 : Int) : ℚ) / 100) envEx.maxVolume)], cacheEx)) ∧
    (dispatch_action envExHalf cacheEx { action := "set", volume := some 70 } =
      (.ok [("status", .str "ok"), ("action", .str "set"),
            ("volume", .rat (min (((70 : Int) : ℚ)) (envExHalf.maxVolume * 100)))],
       [.setVolume (min (((70 : Int) : ℚ) / 100) envExHalf.maxVolume)], cacheEx)) ∧
    apply_state_modifiers envEx { action := "set", volume := some 150 }
      = ([], some (.volumeRange 150)) := by
  refine ⟨?_, ?_, ?_⟩
  · exact (C7_volume_capping envEx cacheEx { action := "set", volume := some 70 } 70
      rfl).2.2 (by decide) rfl rfl rfl rfl
  · exact (C7_volume_capping envExHalf cacheEx { action := "set", volume := some 70 } 70
      rfl).2.2 (by decide) rfl rfl rfl rfl
  · exact ((C7_volume_capping envEx cacheEx { action := "set", volume := some 150 } 150
      rfl).1 (by decide)).1

/-- C8: for a play command whose target is a name (not an identifier) that
the cache resolves to a track identifier, with no context and no trailing
modifiers, the executor resolves the name, then appends the resolved
identifier to the queue, then advances to the next track — in that order —
and the result carries `resolved_uri` exactly when the resolved identifier
differs from the literal target. -/
theorem C8_play_name_queue_advance (env : Env) (c c' : NameCache) (cmd : Cmd)
    (target uri : String)
    (haction : cmd.action = "play")
    (htarget : cmd.target = some target)
    (hctx : cmd.context = none)
    (hkind : cmd.kind = none)
    (hname : is_uri target = false)
    (hres : NameCache.resolve env.fuzzy c "track" target = (some uri, c'))
    (_htrack : uri_kind uri = "track")
    (hvol : cmd.volume = none) (hrel : cmd.volumeRel = none)
    (hmode : cmd.mode = none) (hdev : cmd.device = none) :
    dispatch_action env c cmd =
      (.ok ([("status", .str "ok"), ("action", .str "play"),
             ("kind", .str "track"), ("target", .str target)] ++
            (if uri = target then [] else [("resolved_uri", .str uri)])),
       [.cacheResolve "track" target, .addToQueue uri, .skipNext], c') := by
  have hprim : primary_action env c cmd = action_play env c cmd := by
    unfold primary_action
    rw [haction]
    rfl
  have hpr : action_play.playResult target uri "track" none
      = [("status", .str "ok"), ("action", .str "play"),
         ("kind", .str "track"), ("target", .str target)] ++
        (if uri = target then [] else [("resolved_uri", .str uri)]) := by
    unfold action_play.playResult
    by_cases h : uri = target
    · rw [if_neg (not_not_intro h), if_pos h, List.append_nil]
    · rw [if_pos h, if_neg h]
      rfl
  have hplay : action_play env c cmd =
      (.ok (action_play.playResult target uri "track" none),
       [.cacheResolve "track" target, .addToQueue uri, .skipNext], c') := by
    unfold action_play
    simp only [htarget, hkind, Option.getD_none, hname, hres]
    unfold action_play.playBranches
    rw [if_neg (by decide)]
    simp only [hctx]
    rfl
  have hm1 : modVolume env cmd = ([], none) := by
    unfold modVolume
    rw [hvol]
  have hm2 : modVolumeRel env cmd = ([], none) := by
    unfold modVolumeRel
    rw [hrel]
  have hm3 : modMode cmd = ([], none) := by
    unfold modMode
    rw [hmode]
  have hm4 : modDevice env cmd = ([], none) := by
    unfold modDevice
    rw [hdev]
  have ham : apply_state_modifiers env cmd = ([], none) := by
    simp only [apply_state_modifiers, hm1, hm2, hm3, hm4, List.append_nil]
  unfold dispatch_action
  rw [hprim, hplay]
  simp only [ham, hvol, List.append_nil]
  rw [hpr]

/-- Witness for C8 at the concrete cache entry jazz -> spotify:track:u1. -/
theorem C8_play_name_queue_advance_witness :
    dispatch_action envEx cacheEx { action := "play", target := some "jazz" } =
      (.ok [("status", .str "ok"), ("action", .str "play"),
            ("kind", .str "track"), ("target", .str "jazz"),
            ("resolved_uri", .str "spotify:track:u1")],
       [.cacheResolve "track" "jazz", .addToQueue "spotify:track:u1", .skipNext],
       cacheEx) := by
  have h := C8_play_name_queue_advance envEx cacheEx cacheEx
    { action := "play", target := some "jazz" } "jazz" "spotify:track:u1"
    rfl rfl rfl rfl (by decide) (by decide) (by decide) rfl rfl rfl rfl
  simpa using h

/-! ### Enrichment lemmas for C10 -/

theorem enrich_one_uri (qenv : QueryEnv) (c : NameCache) (t : Track) :
    (enrich_one qenv c t).1.uri = t.uri := by
  unfold enrich_one enrich_api
  repeat' split
  all_goals rfl

theorem enrich_tracks_uris (qenv : QueryEnv) :
    ∀ (ts : List Track) (c : NameCache),
      (enrich_tracks qenv c ts).1.map Track.uri = ts.map Track.uri
  | [], _ => rfl
  | t :: rest, c => by
    simp only [enrich_tracks]
    rw [List.map_cons, List.map_cons, enrich_one_uri,
      enrich_tracks_uris qenv rest (enrich_one qenv c t).2]

theorem enrich_tracks_length (qenv : QueryEnv) (ts : List Track) (c : NameCache) :
    (enrich_tracks qenv c ts).1.length = ts.length := by
  have h := congrArg List.length (enrich_tracks_uris qenv ts c)
  simpa using h

theorem drop_append_enriched {α : Type} (tracks enriched : List α) (limit : Nat)
    (hlen : enriched.length = (tracks.take limit).length) :
    (enriched ++ tracks.drop limit).drop limit = tracks.drop limit := by
  rw [List.drop_append_eq_append_drop]
  rw [List.drop_eq_nil_of_le (by rw [hlen, List.length_take]; exact Nat.min_le_left _ _),
    List.nil_append]
  rcases le_or_lt limit tracks.length with h | h
  · have h2 : enriched.length = limit := by
      rw [hlen, List.length_take]
      exact Nat.min_eq_left h
    rw [h2, Nat.sub_self, List.drop_zero]
  · have h2 : tracks.drop limit = [] := List.drop_eq_nil_of_le (by omega)
    rw [h2, List.drop_nil]

theorem enriched_data_shape (qenv : QueryEnv) (c : NameCache)
    (tracks : List Track) (limit : Nat) :
    ((enrich_tracks qenv c (tracks.take limit)).1 ++ tracks.drop limit).map Track.uri
      = tracks.map Track.uri ∧
    ((enrich_tracks qenv c (tracks.take limit)).1 ++ tracks.drop limit).length
      = tracks.length ∧
    ((enrich_tracks qenv c (tracks.take limit)).1 ++ tracks.drop limit).drop limit
      = tracks.drop limit := by
  refine ⟨?_, ?_, ?_⟩
  · rw [List.map_append, enrich_tracks_uris, ← List.map_append, List.take_append_drop]
  · rw [List.length_append, enrich_tracks_length, ← List.length_append,
      List.take_append_drop]
  · exact drop_append_enriched tracks _ limit (enrich_tracks_length qenv _ c)

/-- C10: for get_queue and history, the limit never truncates the returned
data — the data field keeps every track of the player-provided list (same
length, same identifiers in the same order, and every element past the
limit untouched); the limit field is reported as given (default 10) and
only bounds how many leading tracks are enriched. -/
theorem C10_limit_only_enriches (qenv : QueryEnv) (c : NameCache)
    (limitArg : Option Nat) :
    ((query_get_queue qenv c limitArg).1.1.map Track.uri
        = qenv.queueTracks.map Track.uri ∧
     (query_get_queue qenv c limitArg).1.1.length = qenv.queueTracks.length ∧
     (query_get_queue qenv c limitArg).1.1.drop (limitArg.getD 10)
        = qenv.queueTracks.drop (limitArg.getD 10) ∧
     (query_get_queue qenv c limitArg).1.2 = limitArg.getD 10) ∧
    ((query_history qenv c limitArg).1.1.map Track.uri
        = qenv.historyTracks.map Track.uri ∧
     (query_history qenv c limitArg).1.1.length = qenv.historyTracks.length ∧
     (query_history qenv c limitArg).1.1.drop (limitArg.getD 10)
        = qenv.historyTracks.drop (limitArg.getD 10) ∧
     (query_history qenv c limitArg).1.2 = limitArg.getD 10) := by
  constructor
  · have h := enriched_data_shape qenv c qenv.queueTracks (limitArg.getD 10)
    exact ⟨h.1, h.2.1, h.2.2, rfl⟩
  · have h := enriched_data_shape qenv c qenv.historyTracks (limitArg.getD 10)
    exact ⟨h.1, h.2.1, h.2.2, rfl⟩

/-- C1: for every command, `execute` runs the body once; exactly when that
first run fails with the stale-connection class (`WebSocketError` raised
directly, or present as the `__cause__` of the wrapped `DSLError`), the
cached player handle is discarded (close errors swallowed — the result does
not depend on the close outcome) and the body runs exactly once more (runs
is always 1 or 2, and 2 iff the first failure was stale); a first success
is returned as-is with no reset; any other first failure, and any failure
of the second run, surfaces as a command error (`DSLError`). -/
theorem C1_execute_retry {R : Type} (inner1 inner2 : Except Exn R)
    (p0 : Option Nat) (b : Bool) :
    ((execute inner1 inner2 p0 b).2.runs = 2 ↔ staleRaise inner1 = true) ∧
    ((execute inner1 inner2 p0 b).2.runs = 1 ∨
      (execute inner1 inner2 p0 b).2.runs = 2) ∧
    ((execute inner1 inner2 p0 b).2.reset = staleRaise inner1) ∧
    (staleRaise inner1 = true → (execute inner1 inner2 p0 b).2.player = none) ∧
    (∀ r, inner1 = .ok r → execute inner1 inner2 p0 b = (.ok r, ⟨1, false, p0⟩)) ∧
    (∀ e, inner1 = .error e → staleRaise inner1 = false →
      ∃ cause, (execute inner1 inner2 p0 b).1 = .error (.dsl cause)) ∧
    (staleRaise inner1 = true → ∀ r, inner2 = .ok r →
      (execute inner1 inner2 p0 b).1 = .ok r) ∧
    (staleRaise inner1 = true → ∀ e, inner2 = .error e →
      ∃ cause, (execute inner1 inner2 p0 b).1 = .error (.dsl cause)) ∧
    (∀ b', execute inner1 inner2 p0 b = execute inner1 inner2 p0 b') := by
  have hrp : ∀ (p : Option Nat) (b' : Bool), reset_player p b' = none := by
    intro p b'
    cases p <;> rfl
  rcases inner1 with e1 | r1
  · rcases e1 with _ | c1 | _
    · rcases inner2 with e2 | r2
      · rcases e2 with _ | c2 | _ <;>
          simp [execute, execute_once, staleRaise, hrp]
      · simp [execute, execute_once, staleRaise, hrp]
    · rcases c1 with _ | c1'
      · simp [execute, execute_once, staleRaise]
      rcases c1' with _ | c2 | _
      · rcases inner2 with e2 | r2
        · rcases e2 with _ | c2' | _ <;>
            simp [execute, execute_once, staleRaise, hrp]
        · simp [execute, execute_once, staleRaise, hrp]
      · simp [execute, execute_once, staleRaise]
      · simp [execute, execute_once, staleRaise]
    · simp [execute, execute_once, staleRaise]
  · simp [execute, execute_once, staleRaise]

/-- Witness for C1: a first run failing with a DSLError caused by a
WebSocketError is retried once after the player handle is discarded, and
the successful second run's result is returned. -/
theorem C1_execute_retry_witness :
    (execute (Except.error (Exn.dsl (some .ws)) : Except Exn Nat)
        (Except.ok 7) (some 3) false).1 = .ok 7 ∧
    (execute (Except.error (Exn.dsl (some .ws)) : Except Exn Nat)
        (Except.ok 7) (some 3) false).2.runs = 2 ∧
    (execute (Except.error (Exn.dsl (some .ws)) : Except Exn Nat)
        (Except.ok 7) (some 3) false).2.player = none := by
  obtain ⟨h1, h2, h3, h4, h5, h6, h7, h8, h9⟩ :=
    C1_execute_retry (Except.error (Exn.dsl (some .ws)) : Except Exn Nat)
      (Except.ok 7) (some 3) false
  exact ⟨h7 rfl 7 rfl, h1.2 rfl, h4 rfl⟩

/-- C2: the claim says an eager warm-up failure is swallowed so executor
construction still succeeds.  In the code, `__init__` runs `_ = self.player`
with no surrounding try/except, so the failure escapes and construction
fails (first conjunct) — contradicting the code's own comment ("warm
Player; if it fails, first command will retry", which can never happen if
the constructor itself raised).  Lazy construction and a healthy eager
warm-up behave as documented (remaining conjuncts). -/
theorem C2_eager_warmup_failure_escapes :
    initExecutor true (.error .ws) = .error .ws ∧
    initExecutor false (.error .ws) = .ok none ∧
    initExecutor true (.ok 5) = .ok (some 5) :=
  ⟨rfl, rfl, rfl⟩

end SpotDSL
